import Mathlib

/-!
Verification development for the netlink session engine in
src/nlmanager/nlmanager.py (ifupdown2).

The byte stream is modelled as a list of natural numbers (one per byte,
little-endian multi-byte fields, matching the native byte order the source
uses through struct pack/unpack).  The receive/demultiplex loop of
NetlinkManager.tx_nlpacket_get_response is embedded as a fuel-indexed
recursive function over the raw buffer; the fuel only serves Lean
termination and is always instantiated with the buffer length (every real
netlink frame consumes at least one byte, in fact sixteen).
-/

namespace Nlmanager

/-! ### Protocol constants

Modelled from the spec: these numeric message-type and flag constants live
in nlpacket.py, which is imported by the source file but is not part of the
sources given here.  The values are the fixed Linux netlink protocol
constants the spec refers to ("Dump termination marker type and the
error-frame type are fixed protocol constants distinct from all data
message types"). -/

def NLMSG_ERROR : Nat := 2

def NLMSG_DONE : Nat := 3

def RTM_NEWLINK : Nat := 16

def RTM_DELLINK : Nat := 17

def RTM_GETLINK : Nat := 18

def RTM_SETLINK : Nat := 19

def RTM_NEWADDR : Nat := 20

def RTM_DELADDR : Nat := 21

def RTM_GETADDR : Nat := 22

def RTM_NEWROUTE : Nat := 24

def RTM_DELROUTE : Nat := 25

def RTM_GETROUTE : Nat := 26

def RTM_NEWNEIGH : Nat := 28

def RTM_DELNEIGH : Nat := 29

def RTM_GETNEIGH : Nat := 30

/-- Modelled from the spec: the distinguished "no matching address" error
code (Error.NLE_NOADDR in nlpacket.py, the libnl constant). -/
def NLE_NOADDR : Nat := 19

def NLM_F_REQUEST : Nat := 1

def NLM_F_ACK : Nat := 4

def NLM_F_DUMP : Nat := 768

def NLM_F_CREATE : Nat := 1024

/-- NetlinkPacket.header_LEN: the fixed 16-byte netlink header. -/
def header_LEN : Nat := 16

/-! ### Byte-level encoding -/

/-- Little-endian value of a list of bytes. -/
def bytesToNat : List Nat → Nat
  | [] => 0
  | b :: bs => b + 256 * bytesToNat bs

/-- The two little-endian bytes of a 16-bit value. -/
def u16le (n : Nat) : List Nat := [n % 256, n / 256 % 256]

/-- The four little-endian bytes of a 32-bit value. -/
def u32le (n : Nat) : List Nat :=
  [n % 256, n / 256 % 256, n / 65536 % 256, n / 16777216 % 256]

/-- One netlink frame on the wire: the 16-byte header
(length, type, flags, sequence, pid) followed by the body. -/
structure Frame where
  msgtype : Nat
  flags : Nat
  seq : Nat
  pid : Nat
  body : List Nat
deriving DecidableEq, Repr

/-- Frame encoding: header fields in wire order, then the body.  The length
field is header_LEN + body length, as build_message produces. -/
def encodeFrame (f : Frame) : List Nat :=
  u32le (header_LEN + f.body.length) ++ u16le f.msgtype ++ u16le f.flags ++
    u32le f.seq ++ u32le f.pid ++ f.body

/-- Field bounds under which a frame is representable on the wire. -/
def Frame.Wellformed (f : Frame) : Prop :=
  f.msgtype < 65536 ∧ f.flags < 65536 ∧ f.seq < 4294967296 ∧
    f.pid < 4294967296 ∧ header_LEN + f.body.length < 4294967296

/-- unpack(header_PACK, data[:header_LEN]) — reads the five header fields
(length, type, flags, sequence, pid); struct.error (modelled as none) when
fewer than 16 bytes remain. -/
def hdrFields (data : List Nat) : Option (Nat × Nat × Nat × Nat × Nat) :=
  match data with
  | l0 :: l1 :: l2 :: l3 :: t0 :: t1 :: g0 :: g1 ::
      s0 :: s1 :: s2 :: s3 :: p0 :: p1 :: p2 :: p3 :: _ =>
    some (bytesToNat [l0, l1, l2, l3], bytesToNat [t0, t1], bytesToNat [g0, g1],
      bytesToNat [s0, s1, s2, s3], bytesToNat [p0, p1, p2, p3])
  | _ => none

/-- unpack('=i', data[header_LEN:header_LEN+4]) — the raw 32-bit value of
the first four body bytes of an error frame; struct.error (none) when fewer
than 20 bytes remain. -/
def errCodeField (data : List Nat) : Option Nat :=
  match data with
  | _ :: _ :: _ :: _ :: _ :: _ :: _ :: _ ::
      _ :: _ :: _ :: _ :: _ :: _ :: _ :: _ :: e0 :: e1 :: e2 :: e3 :: _ =>
    some (bytesToNat [e0, e1, e2, e3])
  | _ => none

/-- abs of the signed 32-bit interpretation of a raw 32-bit value:
Python abs(unpack('=i', ...)[0]). -/
def i32abs (n : Nat) : Nat :=
  if n < 2147483648 then n else 4294967296 - n

/-- The raw 32-bit wire value of a signed 32-bit integer. -/
def u32ofI32 (c : Int) : Nat := (c % 4294967296).toNat

/-! ### The demultiplex loop -/

/-- One decoded message: msg.decode_packet(length, flags, seq, pid, data)
keeps the header fields and, per the WireCodec contract of the spec,
consumes the declared length worth of bytes starting at the frame. -/
structure DecodedMsg where
  msgtype : Nat
  length : Nat
  flags : Nat
  seq : Nat
  pid : Nat
  raw : List Nat
deriving DecidableEq, Repr

/-- The message-type dispatch of the data branch (lines 229-239 of the
source): new/del link, address, neighbor, route. -/
def isDataMsgType (t : Nat) : Bool :=
  t == RTM_NEWLINK || t == RTM_DELLINK || t == RTM_NEWADDR || t == RTM_DELADDR ||
    t == RTM_NEWNEIGH || t == RTM_DELNEIGH || t == RTM_NEWROUTE || t == RTM_DELROUTE

/-- Outcome of the inner `while data:` loop of tx_nlpacket_get_response. -/
inductive RxOutcome where
  /-- `return msgs` (NLMSG_DONE, or an error frame with code 0). -/
  | returned (msgs : List DecodedMsg)
  /-- The buffer was consumed with no terminal frame: back to the select
  loop with the accumulated messages. -/
  | needMore (msgs : List DecodedMsg)
  /-- raise NetlinkNoAddressError. -/
  | noAddressError
  /-- raise NetlinkError, for a nonzero code other than NLE_NOADDR. -/
  | netlinkError (code : Nat)
  /-- raise Exception("RXed unknown netlink message type %s"). -/
  | unknownTypeError (msgtype : Nat)
  /-- struct.error raised by unpack on a too-short slice. -/
  | unpackError
  /-- Fuel artifact: only reachable when a frame declares length 0, where
  the source would loop forever on the same buffer. -/
  | outOfFuel
deriving DecidableEq, Repr

/-- The inner `while data:` loop (source lines 178-247).  Log-string
construction is elided (the spec places logging out of scope).  Each
iteration unpacks the header, discards frames with a foreign pid or
sequence, returns on NLMSG_DONE, classifies NLMSG_ERROR by the absolute
value of its signed code, decodes recognized data types into the
accumulator, raises on unknown types, and advances the buffer by the
declared length. -/
def processBytes (pid seq fuel : Nat) (data : List Nat)
    (msgs : List DecodedMsg) : RxOutcome :=
  match data with
  | [] => .needMore msgs
  | _ :: _ =>
    match hdrFields data with
    | none => .unpackError
    | some (length, msgtype, flags, fseq, fpid) =>
      match fuel with
      | 0 => .outOfFuel
      | fuel' + 1 =>
        if fpid ≠ pid then
          processBytes pid seq fuel' (data.drop length) msgs
        else if fseq ≠ seq then
          processBytes pid seq fuel' (data.drop length) msgs
        else if msgtype = NLMSG_DONE then
          .returned msgs
        else if msgtype = NLMSG_ERROR then
          match errCodeField data with
          | none => .unpackError
          | some rawcode =>
            let error_code := i32abs rawcode
            if error_code ≠ 0 then
              if error_code = NLE_NOADDR then .noAddressError
              else .netlinkError error_code
            else .returned msgs
        else if isDataMsgType msgtype then
          processBytes pid seq fuel' (data.drop length)
            (msgs ++ [⟨msgtype, length, flags, fseq, fpid, data.take length⟩])
        else
          .unknownTypeError msgtype

/-- Run the inner loop with fuel = buffer length (enough for every stream
of frames whose declared length is positive). -/
def processBuffer (pid seq : Nat) (data : List Nat)
    (msgs : List DecodedMsg) : RxOutcome :=
  processBytes pid seq data.length data msgs

/-! ### The outer wait loop -/

/-- One iteration of the select call of the outer `while True:` loop:
either nothing became readable within the 1-second timeout, or one recv
returned a chunk of bytes (a zero-length chunk means the peer closed the
socket). -/
inductive PollEvent where
  | timeout
  | recv (data : List Nat)
deriving DecidableEq, Repr

/-- Result of tx_nlpacket_get_response as seen by its caller. -/
inductive RxResult where
  /-- shutdown_flag was set: return msgs. -/
  | shutdownExit (msgs : List DecodedMsg)
  /-- MAX_NULL_READS poll timeouts: return msgs. -/
  | timedOut (msgs : List DecodedMsg)
  /-- Zero-length recv: return msgs. -/
  | closedExit (msgs : List DecodedMsg)
  /-- Normal return from the inner loop (DONE or ack). -/
  | completed (msgs : List DecodedMsg)
  | raisedNoAddress
  | raisedNetlink (code : Nat)
  | raisedUnknownType (msgtype : Nat)
  | raisedUnpack
  /-- The supplied event trace ended while the source would still be
  sitting in select. -/
  | stillWaiting (null_read : Nat) (msgs : List DecodedMsg)
  /-- Fuel artifact of the inner loop (a zero-length frame). -/
  | diverged
deriving DecidableEq, Repr

def MAX_NULL_READS : Nat := 30

/-- The outer `while True:` loop of tx_nlpacket_get_response (source lines
151-247), driven by a trace of poll events.  null_read is incremented on
every timeout and is never reset when the socket becomes readable. -/
def tx_nlpacket_get_response (pid seq : Nat) (shutdown : Bool) :
    List PollEvent → Nat → List DecodedMsg → RxResult
  | [], null_read, msgs => .stillWaiting null_read msgs
  | ev :: evs, null_read, msgs =>
    if shutdown then .shutdownExit msgs
    else
      match ev with
      | .timeout =>
        if null_read + 1 ≥ MAX_NULL_READS then .timedOut msgs
        else tx_nlpacket_get_response pid seq shutdown evs (null_read + 1) msgs
      | .recv [] => .closedExit msgs
      | .recv data =>
        match processBuffer pid seq data msgs with
        | .returned msgs' => .completed msgs'
        | .needMore msgs' => tx_nlpacket_get_response pid seq shutdown evs null_read msgs'
        | .noAddressError => .raisedNoAddress
        | .netlinkError c => .raisedNetlink c
        | .unknownTypeError t => .raisedUnknownType t
        | .unpackError => .raisedUnpack
        | .outOfFuel => .diverged

/-- Modelled from the spec: the wait loop as the spec words it, "count
consecutive timeouts" — identical to tx_nlpacket_get_response except that
the timeout counter is reset to zero whenever the socket is readable.
Used only to compare the spec wording with the source behavior. -/
def waitLoopConsecutive (pid seq : Nat) (shutdown : Bool) :
    List PollEvent → Nat → List DecodedMsg → RxResult
  | [], null_read, msgs => .stillWaiting null_read msgs
  | ev :: evs, null_read, msgs =>
    if shutdown then .shutdownExit msgs
    else
      match ev with
      | .timeout =>
        if null_read + 1 ≥ MAX_NULL_READS then .timedOut msgs
        else waitLoopConsecutive pid seq shutdown evs (null_read + 1) msgs
      | .recv [] => .closedExit msgs
      | .recv data =>
        match processBuffer pid seq data msgs with
        | .returned msgs' => .completed msgs'
        | .needMore msgs' => waitLoopConsecutive pid seq shutdown evs 0 msgs'
        | .noAddressError => .raisedNoAddress
        | .netlinkError c => .raisedNetlink c
        | .unknownTypeError t => .raisedUnknownType t
        | .unpackError => .raisedUnpack
        | .outOfFuel => .diverged

/-! ### Route batching (_routes_add_or_delete / tx_or_concat_message) -/

def PACKET_CONCAT_SIZE : Nat := 16384

/-- tx_or_concat_message (source lines 295-311): append the pre-built
request bytes to the running concatenation (Python treats both None and an
empty buffer as "start fresh", and b'' ++ msg = msg, so the running state
is the optional accumulated buffer); when the concatenation reaches or
exceeds PACKET_CONCAT_SIZE it is transmitted via tx_nlpacket_raw and the
accumulation restarts.  The first component collects the transmissions in
order. -/
def tx_or_concat_message (sent : List (List Nat)) (total : Option (List Nat))
    (msg : List Nat) : List (List Nat) × Option (List Nat) :=
  let total' := total.getD [] ++ msg
  if PACKET_CONCAT_SIZE ≤ total'.length then (sent ++ [total'], none)
  else (sent, some total')

/-- The per-route loop of _routes_add_or_delete: fold the pre-built
request buffers through tx_or_concat_message. -/
def routesBatchLoop : List (List Nat) → List (List Nat) → Option (List Nat) →
    List (List Nat) × Option (List Nat)
  | [], sent, total => (sent, total)
  | m :: ms, sent, total =>
    let st := tx_or_concat_message sent total m
    routesBatchLoop ms st.1 st.2

/-- The trailing `if total_message: self.tx_nlpacket_raw(total_message)`
of _routes_add_or_delete (an empty leftover buffer is falsy and is not
transmitted). -/
def routesFinalFlush (st : List (List Nat) × Option (List Nat)) :
    List (List Nat) :=
  match st.2 with
  | none => st.1
  | some t => if t.length = 0 then st.1 else st.1 ++ [t]

/-- All transmissions performed by _routes_add_or_delete for a list of
pre-built request buffers, in order. -/
def routesTransmissions (msgs : List (List Nat)) : List (List Nat) :=
  routesFinalFlush (routesBatchLoop msgs [] none)

/-! ### Sequence allocator and request stamping -/

/-- The Sequence class (source lines 27-34): `self._next` starts at 0 and
next() pre-increments and returns it. -/
structure Sequence where
  nxt : Nat
deriving DecidableEq, Repr

def Sequence.init : Sequence := ⟨0⟩

/-- Sequence.next: increment, then return the counter. -/
def Sequence.next (s : Sequence) : Nat × Sequence :=
  (s.nxt + 1, ⟨s.nxt + 1⟩)

/-- A built request as the engine sees it: build_message(seq, pid) stamps
the allocator value and the session pid into the encoded buffer. -/
structure BuiltRequest where
  seq : Nat
  pid : Nat
  msgtype : Nat
  flags : Nat
deriving DecidableEq, Repr

/-- Building one request per entry of `types` in order, each stamped with
self.sequence.next() as every builder in the source does. -/
def buildSession (pid : Nat) : List (Nat × Nat) → Sequence →
    List BuiltRequest × Sequence
  | [], s => ([], s)
  | (t, fl) :: rest, s =>
    let vs := s.next
    let built := buildSession pid rest vs.2
    (⟨vs.1, pid, t, fl⟩ :: built.1, built.2)

/-- request_dump (source lines 259-288): for the four supported RTM_GET
types, build a NLM_F_REQUEST|NLM_F_DUMP request stamped with
sequence.next() and the session pid; otherwise log an error and return
None without consuming a sequence number. -/
def request_dump (s : Sequence) (pid rtm_type : Nat) :
    Option BuiltRequest × Sequence :=
  if rtm_type = RTM_GETADDR ∨ rtm_type = RTM_GETLINK ∨
      rtm_type = RTM_GETNEIGH ∨ rtm_type = RTM_GETROUTE then
    let vs := s.next
    (some ⟨vs.1, pid, rtm_type, NLM_F_REQUEST ||| NLM_F_DUMP⟩, vs.2)
  else (none, s)

/-! ### link_add_vlan and the Python int() conversion -/

/-- Decimal value of a digit list. -/
def digitsVal (cs : List Char) : Nat :=
  cs.foldl (fun a c => 10 * a + (c.toNat - 48)) 0

/-- Python int(str): surrounding whitespace is allowed, then an optional
sign and a nonempty run of decimal digits; anything else raises ValueError
(modelled as none).  This models the language builtin the source applies
to the dotted suffix. -/
def pyInt (s : String) : Option Int :=
  let cs := (((s.data.dropWhile Char.isWhitespace).reverse.dropWhile
    Char.isWhitespace).reverse)
  match cs with
  | [] => none
  | '+' :: ds =>
    if ds ≠ [] ∧ ds.all Char.isDigit then some (digitsVal ds) else none
  | '-' :: ds =>
    if ds ≠ [] ∧ ds.all Char.isDigit then some (-(digitsVal ds : Int)) else none
  | ds =>
    if ds.all Char.isDigit then some (digitsVal ds) else none

/-- str.split(sep) for a one-character separator, on the character list:
"swp2.17" ↦ ["swp2", "17"], "a." ↦ ["a", ""], "" ↦ [""]. -/
def splitOnChar (c : Char) : List Char → List (List Char)
  | [] => [[]]
  | x :: xs =>
    let r := splitOnChar c xs
    if x = c then [] :: r
    else
      match r with
      | [] => [[x]]
      | y :: ys => (x :: y) :: ys

/-- ifname.split('.')[-1]. -/
def lastDotComponent (s : String) : String :=
  ⟨(splitOnChar '.' s.data).getLastD []⟩

/-- How a link_add_vlan call ends. -/
inductive VlanAddResult where
  /-- The validation passed (or was skipped): _link_add builds and
  transmits the RTM_NEWLINK request. -/
  | sent (ifindex : Nat) (ifname : String) (vlanid : Int)
  /-- raise InvalidInterfaceNameVlanCombo, before any packet is built. -/
  | invalidCombo
  /-- ValueError from int() on a non-numeric dotted suffix, before any
  packet is built. -/
  | valueError
deriving DecidableEq, Repr

/-- link_add_vlan (source lines 460-481): when the name contains a dot,
parse the text after the last dot with int() and reject the request when
it differs from the requested vlanid; otherwise proceed to _link_add. -/
def link_add_vlan (ifindex : Nat) (ifname : String) (vlanid : Int) :
    VlanAddResult :=
  if '.' ∈ ifname.data then
    match pyInt (lastDotComponent ifname) with
    | none => .valueError
    | some ifname_vlanid =>
      if ifname_vlanid ≠ vlanid then .invalidCombo
      else .sent ifindex ifname vlanid
  else .sent ifindex ifname vlanid

/-! ### Derived notions used to state the claims -/

/-- Back-to-back encoding of a list of frames, as the kernel packs them in
one receive buffer. -/
def joinFrames : List Frame → List Nat
  | [] => []
  | f :: fs => encodeFrame f ++ joinFrames fs

/-- A frame is attributable to the outstanding request iff both its pid
and its sequence match. -/
def Frame.isForUs (f : Frame) (pid seq : Nat) : Bool :=
  f.pid == pid && f.seq == seq

/-- The decoded object the demultiplex loop appends for a data frame whose
encoding starts the current buffer. -/
def Frame.decoded (f : Frame) : DecodedMsg :=
  ⟨f.msgtype, header_LEN + f.body.length, f.flags, f.seq, f.pid, encodeFrame f⟩

/-- Concatenation of a list of buffers. -/
def concatAll : List (List Nat) → List Nat
  | [] => []
  | l :: ls => l ++ concatAll ls

/-! ## Helper lemmas -/

theorem bytesToNat4 (n : Nat) (h : n < 4294967296) :
    bytesToNat [n % 256, n / 256 % 256, n / 65536 % 256, n / 16777216 % 256] = n := by
  simp only [bytesToNat]
  omega

theorem bytesToNat2 (n : Nat) (h : n < 65536) :
    bytesToNat [n % 256, n / 256 % 256] = n := by
  simp only [bytesToNat]
  omega

theorem encodeFrame_length (f : Frame) :
    (encodeFrame f).length = header_LEN + f.body.length := by
  simp [encodeFrame, u32le, u16le, header_LEN]
  omega

theorem encodeFrame_ne_nil (f : Frame) : encodeFrame f ≠ [] := by
  simp [encodeFrame, u32le, u16le]

theorem hdrFields_encodeFrame (f : Frame) (rest : List Nat) (hw : f.Wellformed) :
    hdrFields (encodeFrame f ++ rest) =
      some (header_LEN + f.body.length, f.msgtype, f.flags, f.seq, f.pid) := by
  obtain ⟨h1, h2, h3, h4, h5⟩ := hw
  simp only [encodeFrame, u32le, u16le, List.cons_append, List.nil_append, hdrFields,
    List.append_assoc]
  rw [bytesToNat4 _ h5, bytesToNat2 _ h1, bytesToNat2 _ h2, bytesToNat4 _ h3,
    bytesToNat4 _ h4]

theorem drop_encodeFrame (f : Frame) (rest : List Nat) :
    (encodeFrame f ++ rest).drop (header_LEN + f.body.length) = rest := by
  rw [← encodeFrame_length f]
  exact List.drop_left _ _

theorem take_encodeFrame (f : Frame) (rest : List Nat) :
    (encodeFrame f ++ rest).take (header_LEN + f.body.length) = encodeFrame f := by
  rw [← encodeFrame_length f]
  exact List.take_left _ _

theorem errCodeField_encodeFrame (f : Frame) (rest : List Nat) (n : Nat)
    (br : List Nat) (hbody : f.body = u32le n ++ br) (hn : n < 4294967296) :
    errCodeField (encodeFrame f ++ rest) = some n := by
  simp only [encodeFrame, hbody, u32le, u16le, List.cons_append, List.nil_append,
    List.append_assoc, errCodeField]
  rw [bytesToNat4 _ hn]

/-- Unfolding of one iteration of the inner loop when a wellformed frame
starts the buffer. -/
theorem processBytes_step (pid seq fuel : Nat) (f : Frame) (rest : List Nat)
    (msgs : List DecodedMsg) (hw : f.Wellformed) :
    processBytes pid seq (fuel + 1) (encodeFrame f ++ rest) msgs =
      if f.pid ≠ pid then processBytes pid seq fuel rest msgs
      else if f.seq ≠ seq then processBytes pid seq fuel rest msgs
      else if f.msgtype = NLMSG_DONE then .returned msgs
      else if f.msgtype = NLMSG_ERROR then
        match errCodeField (encodeFrame f ++ rest) with
        | none => .unpackError
        | some rawcode =>
          if i32abs rawcode ≠ 0 then
            if i32abs rawcode = NLE_NOADDR then .noAddressError
            else .netlinkError (i32abs rawcode)
          else .returned msgs
      else if isDataMsgType f.msgtype then
        processBytes pid seq fuel rest (msgs ++ [Frame.decoded f])
      else .unknownTypeError f.msgtype := by
  have hdr := hdrFields_encodeFrame f rest hw
  have hdrop := drop_encodeFrame f rest
  have htake := take_encodeFrame f rest
  cases hE : encodeFrame f ++ rest with
  | nil => exact absurd hE (by simp [encodeFrame_ne_nil f])
  | cons b bs =>
    rw [hE] at hdr hdrop htake
    simp only [processBytes, hdr, hdrop, htake, Frame.decoded]

/-- Data message types are neither the DONE nor the ERROR marker. -/
theorem isDataMsgType_ne_done_error (t : Nat) (h : isDataMsgType t = true) :
    t ≠ NLMSG_DONE ∧ t ≠ NLMSG_ERROR := by
  simp only [isDataMsgType, Bool.or_eq_true, beq_iff_eq] at h
  constructor <;> rintro rfl <;> simp [NLMSG_DONE, NLMSG_ERROR, RTM_NEWLINK,
    RTM_DELLINK, RTM_NEWADDR, RTM_DELADDR, RTM_NEWNEIGH, RTM_DELNEIGH,
    RTM_NEWROUTE, RTM_DELROUTE] at h

/-- Scanning a run of frames: frames with a foreign pid or sequence are
dropped, matching data frames are decoded in order, and the scan continues
on the remaining bytes with one fuel unit spent per frame. -/
theorem processBytes_stream (pid seq : Nat) :
    ∀ (frames : List Frame) (fuel : Nat) (tail : List Nat)
      (msgs : List DecodedMsg),
      (∀ f ∈ frames, f.Wellformed) →
      (∀ f ∈ frames, f.isForUs pid seq = true → isDataMsgType f.msgtype = true) →
      processBytes pid seq (frames.length + fuel) (joinFrames frames ++ tail) msgs =
        processBytes pid seq fuel tail
          (msgs ++ (frames.filter (fun f => f.isForUs pid seq)).map Frame.decoded) := by
  intro frames
  induction frames with
  | nil =>
    intro fuel tail msgs _ _
    simp [joinFrames]
  | cons f fs ih =>
    intro fuel tail msgs hw hdata
    have hwf : f.Wellformed := hw f (by simp)
    have hlen : (f :: fs).length + fuel = (fs.length + fuel) + 1 := by
      simp [List.length_cons]
      omega
    rw [hlen, show joinFrames (f :: fs) ++ tail = encodeFrame f ++ (joinFrames fs ++ tail) by
      simp [joinFrames]]
    rw [processBytes_step pid seq (fs.length + fuel) f (joinFrames fs ++ tail) msgs hwf]
    by_cases hp : f.pid = pid
    · by_cases hs : f.seq = seq
      · have hus : f.isForUs pid seq = true := by
          simp [Frame.isForUs, hp, hs]
        have hd : isDataMsgType f.msgtype = true := hdata f (by simp) hus
        obtain ⟨hnd, hne⟩ := isDataMsgType_ne_done_error f.msgtype hd
        simp only [hp, hs, ne_eq, not_true_eq_false, if_false, hnd, hne, hd, if_true,
          ite_false, ite_true]
        rw [ih (fuel) (tail) (msgs ++ [f.decoded]) (fun g hg => hw g (by simp [hg]))
          (fun g hg => hdata g (by simp [hg]))]
        simp [hus, List.filter_cons, List.append_assoc]
      · have hus : f.isForUs pid seq = false := by
          simp [Frame.isForUs, hs]
        simp only [hs, ne_eq, not_false_eq_true, if_true, hp, not_true_eq_false, if_false,
          ite_true, ite_false]
        rw [ih fuel tail msgs (fun g hg => hw g (by simp [hg]))
          (fun g hg => hdata g (by simp [hg]))]
        simp [hus, List.filter_cons]
    · have hus : f.isForUs pid seq = false := by
        simp [Frame.isForUs, hp]
      simp only [hp, ne_eq, not_false_eq_true, if_true]
      rw [ih fuel tail msgs (fun g hg => hw g (by simp [hg]))
        (fun g hg => hdata g (by simp [hg]))]
      simp [hus, List.filter_cons]

theorem joinFrames_length_ge (frames : List Frame) :
    frames.length ≤ (joinFrames frames).length := by
  induction frames with
  | nil => simp [joinFrames]
  | cons f fs ih =>
    have := encodeFrame_length f
    simp only [joinFrames, List.length_append, List.length_cons]
    have h16 : 16 ≤ (encodeFrame f).length := by
      rw [encodeFrame_length f]
      simp [header_LEN]
    omega

/-- A matching DONE frame at the head of the buffer returns the
accumulator at once, whatever follows. -/
theorem processBytes_done (pid seq fuel : Nat) (d : Frame) (rest : List Nat)
    (msgs : List DecodedMsg) (hdw : d.Wellformed) (hdp : d.pid = pid)
    (hds : d.seq = seq) (hdt : d.msgtype = NLMSG_DONE) :
    processBytes pid seq (fuel + 1) (encodeFrame d ++ rest) msgs =
      .returned msgs := by
  rw [processBytes_step pid seq fuel d rest msgs hdw]
  simp [hdp, hds, hdt]

/-- A run of frames terminated by a matching DONE frame: the inner loop
returns the decoded matching data frames, in stream order, appended to the
accumulator. -/
theorem processBuffer_dump (pid seq : Nat) (frames : List Frame) (d : Frame)
    (tail : List Nat) (msgs : List DecodedMsg)
    (hw : ∀ f ∈ frames, f.Wellformed)
    (hdata : ∀ f ∈ frames, f.isForUs pid seq = true → isDataMsgType f.msgtype = true)
    (hdw : d.Wellformed) (hdp : d.pid = pid) (hds : d.seq = seq)
    (hdt : d.msgtype = NLMSG_DONE) :
    processBuffer pid seq (joinFrames frames ++ (encodeFrame d ++ tail)) msgs =
      .returned (msgs ++ (frames.filter (fun f => f.isForUs pid seq)).map Frame.decoded) := by
  have hjlen := joinFrames_length_ge frames
  have hd16 : 16 ≤ (encodeFrame d).length := by
    rw [encodeFrame_length d]
    simp [header_LEN]
  have hL : ∃ k, (joinFrames frames ++ (encodeFrame d ++ tail)).length =
      frames.length + (k + 1) := by
    refine ⟨(joinFrames frames ++ (encodeFrame d ++ tail)).length - frames.length - 1, ?_⟩
    simp only [List.length_append]
    omega
  obtain ⟨k, hk⟩ := hL
  rw [processBuffer, hk, processBytes_stream pid seq frames (k + 1) (encodeFrame d ++ tail)
    msgs hw hdata, processBytes_done pid seq k d tail _ hdw hdp hds hdt]

/-- The unpack of the header fails exactly on a buffer shorter than the
16-byte header. -/
theorem hdrFields_none_of_short (data : List Nat) (h : data.length < 16) :
    hdrFields data = none := by
  unfold hdrFields
  split
  · exfalso
    simp only [List.length_cons] at h
    omega
  · rfl

/-- One outer-loop iteration on a readable socket with a non-empty chunk:
the chunk is fed to the inner loop and a non-terminal outcome loops back. -/
theorem tx_response_recv (pid seq : Nat) (data : List Nat)
    (evs : List PollEvent) (null_read : Nat) (msgs : List DecodedMsg)
    (hne : data ≠ []) :
    tx_nlpacket_get_response pid seq false (.recv data :: evs) null_read msgs =
      match processBuffer pid seq data msgs with
      | .returned msgs' => .completed msgs'
      | .needMore msgs' => tx_nlpacket_get_response pid seq false evs null_read msgs'
      | .noAddressError => .raisedNoAddress
      | .netlinkError c => .raisedNetlink c
      | .unknownTypeError t => .raisedUnknownType t
      | .unpackError => .raisedUnpack
      | .outOfFuel => .diverged := by
  cases data with
  | nil => exact absurd rfl hne
  | cons b bs => simp only [tx_nlpacket_get_response, Bool.false_eq_true, if_false]

/-- A run of k consecutive poll timeouts drives the cumulative counter
from n to at least MAX_NULL_READS and ends the wait with the accumulator,
whatever events follow. -/
theorem tx_response_timeouts (pid seq : Nat) :
    ∀ (k n : Nat) (rest : List PollEvent) (msgs : List DecodedMsg),
      1 ≤ k → 30 ≤ n + k →
      tx_nlpacket_get_response pid seq false
        (List.replicate k .timeout ++ rest) n msgs = .timedOut msgs := by
  intro k
  induction k with
  | zero => intro n rest msgs h1 _; omega
  | succ k ih =>
    intro n rest msgs _ h30
    rw [List.replicate_succ, List.cons_append]
    by_cases hcap : n + 1 ≥ MAX_NULL_READS
    · simp [tx_nlpacket_get_response, hcap]
    · have hk1 : 1 ≤ k := by simp [MAX_NULL_READS] at hcap; omega
      have h30k : 30 ≤ (n + 1) + k := by omega
      simp only [tx_nlpacket_get_response, Bool.false_eq_true, if_false, hcap, ite_false]
      exact ih (n + 1) rest msgs hk1 h30k

/-- The signed 32-bit decode then abs of the wire image of c is the
absolute value of c. -/
theorem i32abs_u32ofI32 (c : Int) (h1 : -2147483648 ≤ c) (h2 : c < 2147483648) :
    i32abs (u32ofI32 c) = c.natAbs := by
  unfold i32abs u32ofI32
  split
  · omega
  · omega

theorem u32ofI32_lt (c : Int) : u32ofI32 c < 4294967296 := by
  unfold u32ofI32
  omega

theorem concatAll_append (a b : List (List Nat)) :
    concatAll (a ++ b) = concatAll a ++ concatAll b := by
  induction a with
  | nil => simp [concatAll]
  | cons l ls ih => simp [concatAll, ih]

/-- Invariant of the per-route batching fold: the pending concatenation
stays below the budget, every transmission stays below budget plus one
request, and no byte is lost or reordered. -/
theorem routesBatchLoop_inv (L : Nat) :
    ∀ (msgs sent : List (List Nat)) (total : Option (List Nat)),
      (∀ m ∈ msgs, m.length ≤ L) →
      (total.getD []).length < PACKET_CONCAT_SIZE →
      (∀ t ∈ sent, t.length < PACKET_CONCAT_SIZE + L) →
      (∀ t ∈ (routesBatchLoop msgs sent total).1,
          t.length < PACKET_CONCAT_SIZE + L) ∧
      ((routesBatchLoop msgs sent total).2.getD []).length < PACKET_CONCAT_SIZE ∧
      concatAll (routesBatchLoop msgs sent total).1 ++
          ((routesBatchLoop msgs sent total).2.getD []) =
        concatAll sent ++ total.getD [] ++ concatAll msgs := by
  intro msgs
  induction msgs with
  | nil =>
    intro sent total h1 h2 h3
    refine ⟨h3, h2, ?_⟩
    simp [routesBatchLoop, concatAll]
  | cons m ms ih =>
    intro sent total h1 h2 h3
    have hm : m.length ≤ L := h1 m (by simp)
    have h1' : ∀ x ∈ ms, x.length ≤ L := fun x hx => h1 x (by simp [hx])
    simp only [routesBatchLoop, tx_or_concat_message]
    by_cases hf : PACKET_CONCAT_SIZE ≤ (total.getD [] ++ m).length
    · simp only [hf, if_true]
      have h3' : ∀ t ∈ sent ++ [total.getD [] ++ m],
          t.length < PACKET_CONCAT_SIZE + L := by
        intro t ht
        rcases List.mem_append.mp ht with h | h
        · exact h3 t h
        · simp only [List.mem_singleton] at h
          subst h
          simp only [List.length_append]
          omega
      have h2' : ((none : Option (List Nat)).getD []).length < PACKET_CONCAT_SIZE := by
        simp [PACKET_CONCAT_SIZE]
      obtain ⟨g1, g2, g3⟩ := ih (sent ++ [total.getD [] ++ m]) none h1' h2' h3'
      refine ⟨g1, g2, ?_⟩
      rw [g3]
      simp [concatAll_append, concatAll, List.append_assoc]
    · simp only [hf, if_false]
      have h2' : ((some (total.getD [] ++ m)).getD []).length < PACKET_CONCAT_SIZE := by
        simp only [Option.getD_some]
        omega
      obtain ⟨g1, g2, g3⟩ := ih sent (some (total.getD [] ++ m)) h1' h2' h3
      refine ⟨g1, g2, ?_⟩
      rw [g3]
      simp [concatAll, List.append_assoc]

theorem buildSession_props (pid : Nat) :
    ∀ (types : List (Nat × Nat)) (s : Sequence),
      ((buildSession pid types s).1.map BuiltRequest.seq =
        List.range' (s.nxt + 1) types.length) ∧
      (∀ r ∈ (buildSession pid types s).1, s.nxt + 1 ≤ r.seq ∧ r.pid = pid) ∧
      (buildSession pid types s).2.nxt = s.nxt + types.length := by
  intro types
  induction types with
  | nil =>
    intro s
    simp [buildSession]
  | cons tf rest ih =>
    intro s
    obtain ⟨t, fl⟩ := tf
    obtain ⟨g1, g2, g3⟩ := ih ⟨s.nxt + 1⟩
    simp only [show (⟨s.nxt + 1⟩ : Sequence).nxt = s.nxt + 1 from rfl] at g1 g2 g3
    refine ⟨?_, ?_, ?_⟩
    · simp only [buildSession, Sequence.next, List.map_cons, List.length_cons,
        List.range'_succ]
      rw [g1]
    · intro r hr
      simp only [buildSession, Sequence.next, List.mem_cons] at hr
      rcases hr with h | h
      · subst h
        exact ⟨le_refl _, rfl⟩
      · obtain ⟨ha, hb⟩ := g2 r h
        exact ⟨by omega, hb⟩
    · simp only [buildSession, Sequence.next]
      rw [g3]
      simp [List.length_cons]
      omega

/-! ## Claim theorems -/

/-- Claim C1: every frame whose header pid or sequence differs from the
outstanding request is discarded — nothing is appended, nothing raises —
and the remaining buffer is advanced by exactly the declared frame length
(first conjunct); consequently, feeding a stream of frames terminated by a
matching DONE frame returns exactly the surviving matching frames, decoded
in their original relative order (second conjunct). -/
theorem foreign_frames_discarded :
    (∀ (pid seq fuel : Nat) (f : Frame) (rest : List Nat) (msgs : List DecodedMsg),
      f.Wellformed → (f.pid ≠ pid ∨ f.seq ≠ seq) →
      processBytes pid seq (fuel + 1) (encodeFrame f ++ rest) msgs =
        processBytes pid seq fuel rest msgs) ∧
    (∀ (pid seq : Nat) (frames : List Frame) (d : Frame) (tail : List Nat),
      (∀ f ∈ frames, f.Wellformed) →
      (∀ f ∈ frames, f.isForUs pid seq = true → isDataMsgType f.msgtype = true) →
      d.Wellformed → d.pid = pid → d.seq = seq → d.msgtype = NLMSG_DONE →
      processBuffer pid seq (joinFrames frames ++ (encodeFrame d ++ tail)) [] =
        .returned ((frames.filter (fun f => f.isForUs pid seq)).map Frame.decoded)) := by
  constructor
  · intro pid seq fuel f rest msgs hw hforeign
    rw [processBytes_step pid seq fuel f rest msgs hw]
    rcases hforeign with h | h
    · simp [h]
    · by_cases hp : f.pid = pid
      · simp [hp, h]
      · simp [hp]
  · intro pid seq frames d tail hw hdata hdw hdp hds hdt
    simpa using processBuffer_dump pid seq frames d tail [] hw hdata hdw hdp hds hdt

theorem foreign_frames_discarded_witness :
    processBytes 1 1 1 (encodeFrame ⟨RTM_NEWLINK, 0, 2, 1, []⟩ ++ []) [] =
      processBytes 1 1 0 [] [] :=
  foreign_frames_discarded.1 1 1 0 ⟨RTM_NEWLINK, 0, 2, 1, []⟩ [] []
    (by refine ⟨?_, ?_, ?_, ?_, ?_⟩ <;> simp [RTM_NEWLINK, header_LEN])
    (Or.inr (by simp))

/-- Claim C2: a matching NLMSG_ERROR frame is classified by the absolute
value of the signed 32-bit code in its first four body bytes: code 0
returns the accumulated results without raising, the distinguished
no-address code raises NetlinkNoAddressError, and every other nonzero code
raises the generic NetlinkError. -/
theorem error_frame_classification (pid seq fuel fl : Nat) (c : Int)
    (br rest : List Nat) (msgs : List DecodedMsg)
    (hp : pid < 4294967296) (hs : seq < 4294967296) (hf : fl < 65536)
    (hc1 : -2147483648 ≤ c) (hc2 : c < 2147483648)
    (hb : header_LEN + (4 + br.length) < 4294967296) :
    processBytes pid seq (fuel + 1)
        (encodeFrame ⟨NLMSG_ERROR, fl, seq, pid, u32le (u32ofI32 c) ++ br⟩ ++ rest)
        msgs =
      (if c.natAbs = 0 then .returned msgs
       else if c.natAbs = NLE_NOADDR then .noAddressError
       else .netlinkError c.natAbs) := by
  have hw : Frame.Wellformed ⟨NLMSG_ERROR, fl, seq, pid, u32le (u32ofI32 c) ++ br⟩ := by
    refine ⟨by simp [NLMSG_ERROR], hf, hs, hp, ?_⟩
    simp only [List.length_append, u32le, List.length_cons, List.length_nil]
    omega
  rw [processBytes_step pid seq fuel _ rest msgs hw]
  rw [errCodeField_encodeFrame _ rest (u32ofI32 c) br rfl (u32ofI32_lt c)]
  have habs := i32abs_u32ofI32 c hc1 hc2
  rcases eq_or_ne c.natAbs 0 with h0 | h0
  · simp [habs, h0, NLMSG_ERROR, NLMSG_DONE]
  · rcases eq_or_ne c.natAbs NLE_NOADDR with hna | hna <;>
      simp [habs, h0, hna, NLMSG_ERROR, NLMSG_DONE]

theorem error_frame_classification_witness :
    processBytes 99 1 1
        (encodeFrame ⟨NLMSG_ERROR, 0, 1, 99, u32le (u32ofI32 (-19)) ++ []⟩ ++ []) [] =
      .noAddressError := by
  have h := error_frame_classification 99 1 0 0 (-19) [] [] []
    (by simp) (by simp) (by simp) (by simp) (by simp) (by simp [header_LEN])
  simpa [NLE_NOADDR] using h

/-- Claim C3: for a dump request whose matching response stream is K data
frames (matching pid and sequence, recognized data types) followed by a
DONE frame, tx_nlpacket_get_response returns exactly the K decoded objects
in the order the frames appeared, terminating at the DONE frame whatever
bytes follow it. -/
theorem dump_returns_all_data (pid seq : Nat) (frames : List Frame) (d : Frame)
    (tail : List Nat)
    (hw : ∀ f ∈ frames, f.Wellformed)
    (hmp : ∀ f ∈ frames, f.pid = pid) (hms : ∀ f ∈ frames, f.seq = seq)
    (hdata : ∀ f ∈ frames, isDataMsgType f.msgtype = true)
    (hdw : d.Wellformed) (hdp : d.pid = pid) (hds : d.seq = seq)
    (hdt : d.msgtype = NLMSG_DONE) :
    tx_nlpacket_get_response pid seq false
        [.recv (joinFrames frames ++ (encodeFrame d ++ tail))] 0 [] =
      .completed (frames.map Frame.decoded) := by
  have hne : joinFrames frames ++ (encodeFrame d ++ tail) ≠ [] := by
    intro h
    rcases List.append_eq_nil.mp h with ⟨_, h2⟩
    rcases List.append_eq_nil.mp h2 with ⟨h3, _⟩
    exact encodeFrame_ne_nil d h3
  rw [tx_response_recv pid seq _ [] 0 [] hne]
  rw [processBuffer_dump pid seq frames d tail [] hw (fun f hf _ => hdata f hf)
    hdw hdp hds hdt]
  have hfix : frames.filter (fun f => f.isForUs pid seq) = frames := by
    apply List.filter_eq_self.mpr
    intro f hf
    simp [Frame.isForUs, hmp f hf, hms f hf]
  simp [hfix]

theorem dump_returns_all_data_witness :
    tx_nlpacket_get_response 99 1 false
        [.recv (joinFrames [⟨RTM_NEWLINK, 0, 1, 99, []⟩] ++
          (encodeFrame ⟨NLMSG_DONE, 0, 1, 99, []⟩ ++ []))] 0 [] =
      .completed ([⟨RTM_NEWLINK, 0, 1, 99, []⟩].map Frame.decoded) :=
  dump_returns_all_data 99 1 [⟨RTM_NEWLINK, 0, 1, 99, []⟩] ⟨NLMSG_DONE, 0, 1, 99, []⟩ []
    (by intro f hf; simp only [List.mem_singleton] at hf; subst hf;
        exact ⟨by simp [RTM_NEWLINK], by simp, by simp, by simp, by simp [header_LEN]⟩)
    (by intro f hf; simp only [List.mem_singleton] at hf; subst hf; rfl)
    (by intro f hf; simp only [List.mem_singleton] at hf; subst hf; rfl)
    (by intro f hf; simp only [List.mem_singleton] at hf; subst hf; rfl)
    ⟨by simp [NLMSG_DONE], by simp, by simp, by simp, by simp [header_LEN]⟩
    rfl rfl rfl

/-- Claim C9: a matching frame whose message type is outside the
recognized enumeration (not DONE, not ERROR, not one of the eight new/del
data types) raises the unknown-type error identifying the type; the frame
is not skipped and nothing after it is examined. -/
theorem unknown_type_raises (pid seq fuel : Nat) (f : Frame) (rest : List Nat)
    (msgs : List DecodedMsg) (hw : f.Wellformed) (hp : f.pid = pid)
    (hs : f.seq = seq) (hnd : f.msgtype ≠ NLMSG_DONE)
    (hne : f.msgtype ≠ NLMSG_ERROR) (hnr : isDataMsgType f.msgtype = false) :
    processBytes pid seq (fuel + 1) (encodeFrame f ++ rest) msgs =
      .unknownTypeError f.msgtype := by
  rw [processBytes_step pid seq fuel f rest msgs hw]
  simp [hp, hs, hnd, hne, hnr]

theorem unknown_type_raises_witness :
    processBytes 99 1 1 (encodeFrame ⟨RTM_GETLINK, 0, 1, 99, []⟩ ++ []) [] =
      .unknownTypeError RTM_GETLINK :=
  unknown_type_raises 99 1 0 ⟨RTM_GETLINK, 0, 1, 99, []⟩ [] []
    ⟨by simp [RTM_GETLINK], by simp, by simp, by simp, by simp [header_LEN]⟩
    rfl rfl (by simp [RTM_GETLINK, NLMSG_DONE]) (by simp [RTM_GETLINK, NLMSG_ERROR])
    (by rfl)

/-- Claim C4 (counterexample): on a received chunk of three bytes —
remaining length positive but shorter than one 16-byte header — the loop
raises the struct unpack error instead of going back to waiting, so the
claim that it never fails on such a buffer is false of the code, whose
inner loop runs whenever the buffer is non-empty. -/
theorem short_buffer_counterexample :
    tx_nlpacket_get_response 1 1 false [.recv [0, 0, 0]] 0 [] = .raisedUnpack := by
  rfl

/-- Claim C4 (amended): the loop attempts the 16-byte header unpack
whenever the current buffer is non-empty; a non-empty remainder shorter
than one header raises the unpack error; an exactly exhausted (empty)
buffer — and only that — goes back to waiting for more bytes, preserving
the accumulated results across the wait. -/
theorem header_read_amended :
    (∀ (pid seq fuel : Nat) (msgs : List DecodedMsg),
      processBytes pid seq fuel [] msgs = .needMore msgs) ∧
    (∀ (pid seq fuel : Nat) (data : List Nat) (msgs : List DecodedMsg),
      data ≠ [] → data.length < header_LEN →
      processBytes pid seq fuel data msgs = .unpackError) ∧
    (∀ (pid seq : Nat) (data : List Nat) (evs : List PollEvent)
        (null_read : Nat) (msgs msgs' : List DecodedMsg),
      data ≠ [] → processBuffer pid seq data msgs = .needMore msgs' →
      tx_nlpacket_get_response pid seq false (.recv data :: evs) null_read msgs =
        tx_nlpacket_get_response pid seq false evs null_read msgs') := by
  refine ⟨?_, ?_, ?_⟩
  · intro pid seq fuel msgs
    simp [processBytes]
  · intro pid seq fuel data msgs hne hlt
    cases data with
    | nil => exact absurd rfl hne
    | cons b bs =>
      have h := hdrFields_none_of_short (b :: bs) (by simpa [header_LEN] using hlt)
      simp [processBytes, h]
  · intro pid seq data evs null_read msgs msgs' hne hproc
    rw [tx_response_recv pid seq data evs null_read msgs hne, hproc]

theorem header_read_amended_witness :
    processBytes 1 2 3 [5] [] = .unpackError ∧
      processBytes 1 2 3 [] [] = .needMore [] :=
  ⟨header_read_amended.2.1 1 2 3 [5] [] (by simp) (by simp [header_LEN]),
   header_read_amended.1 1 2 3 []⟩

/-- Claim C5 (counterexample): the timeout counter is cumulative, never
reset by readable data. After 29 timeouts, a readable event delivering one
matching data frame, and a single further timeout — a run of only one
consecutive timeout — the source gives up and returns the partial result,
while the count-consecutive loop the claim describes would go on to
consume the remaining readable events and complete the dump with both
messages. -/
theorem timeout_count_counterexample :
    tx_nlpacket_get_response 99 1 false
        (List.replicate 29 .timeout ++
          [.recv (encodeFrame ⟨RTM_NEWLINK, 0, 1, 99, []⟩), .timeout,
            .recv (encodeFrame ⟨RTM_NEWROUTE, 0, 1, 99, []⟩),
            .recv (encodeFrame ⟨NLMSG_DONE, 0, 1, 99, []⟩)]) 0 [] =
      .timedOut [Frame.decoded ⟨RTM_NEWLINK, 0, 1, 99, []⟩] ∧
    waitLoopConsecutive 99 1 false
        (List.replicate 29 .timeout ++
          [.recv (encodeFrame ⟨RTM_NEWLINK, 0, 1, 99, []⟩), .timeout,
            .recv (encodeFrame ⟨RTM_NEWROUTE, 0, 1, 99, []⟩),
            .recv (encodeFrame ⟨NLMSG_DONE, 0, 1, 99, []⟩)]) 0 [] =
      .completed [Frame.decoded ⟨RTM_NEWLINK, 0, 1, 99, []⟩,
        Frame.decoded ⟨RTM_NEWROUTE, 0, 1, 99, []⟩] := by
  constructor <;> rfl

/-- Claim C5 (amended): the wait loop counts 1-second poll timeouts
cumulatively over the whole wait — the counter is never reset when data
arrives — and the moment the cumulative count reaches the fixed maximum of
30 it stops waiting and returns whatever results have accumulated (the
empty list if no data ever arrived) rather than raising or blocking
forever. -/
theorem timeout_cap_cumulative :
    (∀ (pid seq : Nat) (evs : List PollEvent) (msgs : List DecodedMsg),
      tx_nlpacket_get_response pid seq false (.timeout :: evs) 29 msgs =
        .timedOut msgs) ∧
    (∀ (pid seq : Nat) (rest : List PollEvent) (msgs : List DecodedMsg),
      tx_nlpacket_get_response pid seq false
        (List.replicate MAX_NULL_READS .timeout ++ rest) 0 msgs =
        .timedOut msgs) := by
  constructor
  · intro pid seq evs msgs
    simp [tx_nlpacket_get_response, MAX_NULL_READS]
  · intro pid seq rest msgs
    exact tx_response_timeouts pid seq MAX_NULL_READS 0 rest msgs
      (by simp [MAX_NULL_READS]) (by simp [MAX_NULL_READS])

/-- Two requests whose first stays under the budget while their sum
reaches it are sent as one concatenated transmission. -/
theorem routesTransmissions_pair (m1 m2 : List Nat)
    (h1 : m1.length < PACKET_CONCAT_SIZE)
    (h2 : PACKET_CONCAT_SIZE ≤ m1.length + m2.length) :
    routesTransmissions [m1, m2] = [m1 ++ m2] := by
  have s1 : tx_or_concat_message [] none m1 = ([], some m1) := by
    simp only [tx_or_concat_message, Option.getD_none, List.nil_append]
    rw [if_neg (by omega)]
  have s2 : tx_or_concat_message [] (some m1) m2 = ([m1 ++ m2], none) := by
    simp only [tx_or_concat_message, Option.getD_some]
    rw [if_pos (by simp only [List.length_append]; omega)]
    simp
  unfold routesTransmissions
  simp only [routesBatchLoop]
  rw [s1]
  simp only []
  rw [s2]
  simp [routesFinalFlush]

/-- Claim C6 (counterexample): two 10000-byte requests, each individually
below the 16384-byte budget, are concatenated and then flushed as a single
20000-byte transmission, so "no single transmission exceeds the budget
except when one individual request is itself oversized" is false of the
code, which flushes only after appending the request that crosses the
boundary. -/
theorem batch_budget_counterexample :
    routesTransmissions [List.replicate 10000 0, List.replicate 10000 0] =
      [List.replicate 10000 0 ++ List.replicate 10000 0] ∧
    (List.replicate 10000 (0 : Nat) ++ List.replicate 10000 0).length = 20000 ∧
    (List.replicate 10000 (0 : Nat)).length < PACKET_CONCAT_SIZE := by
  refine ⟨?_, ?_, ?_⟩
  · refine routesTransmissions_pair _ _ ?_ ?_
    · rw [List.length_replicate]
      norm_num [PACKET_CONCAT_SIZE]
    · rw [List.length_replicate]
      norm_num [PACKET_CONCAT_SIZE]
  · rw [List.length_append, List.length_replicate]
  · rw [List.length_replicate]
    norm_num [PACKET_CONCAT_SIZE]

/-- Claim C6 (amended): the running concatenation is flushed exactly when
its length reaches or exceeds the 16384-byte budget, any non-empty
remainder is flushed after the last request and no byte is lost or
reordered; but a flushed transmission may exceed the budget even when no
individual request is oversized: each transmission is only bounded
(strictly) by the budget plus the largest individual request length,
because the request that crosses the boundary is appended before the
flush. -/
theorem batch_budget_amended :
    (∀ (sent : List (List Nat)) (total : Option (List Nat)) (msg : List Nat),
      (tx_or_concat_message sent total msg).2 = none ↔
        PACKET_CONCAT_SIZE ≤ (total.getD [] ++ msg).length) ∧
    (∀ (L : Nat) (msgs : List (List Nat)),
      (∀ m ∈ msgs, m.length ≤ L) →
      (∀ t ∈ routesTransmissions msgs, t.length < PACKET_CONCAT_SIZE + L) ∧
      concatAll (routesTransmissions msgs) = concatAll msgs) := by
  constructor
  · intro sent total msg
    simp only [tx_or_concat_message]
    by_cases h : PACKET_CONCAT_SIZE ≤ (total.getD [] ++ msg).length
    · rw [if_pos h]
      simpa using h
    · rw [if_neg h]
      simpa using h
  · intro L msgs hm
    obtain ⟨g1, g2, g3⟩ := routesBatchLoop_inv L msgs [] none hm
      (by simp [PACKET_CONCAT_SIZE]) (by simp)
    simp only [concatAll, Option.getD_none, List.append_nil, List.nil_append] at g3
    rcases hR : routesBatchLoop msgs [] none with ⟨sentF, totF⟩
    rw [hR] at g1 g2 g3
    unfold routesTransmissions
    rw [hR]
    cases totF with
    | none =>
      simp only [routesFinalFlush, Option.getD_none, List.append_nil] at g3 ⊢
      exact ⟨g1, g3⟩
    | some tt =>
      simp only [Option.getD_some] at g2 g3
      by_cases hz : tt.length = 0
      · have htt : tt = [] := List.length_eq_zero.mp hz
        subst htt
        simp only [routesFinalFlush, List.length_nil, if_true]
        refine ⟨g1, ?_⟩
        simpa using g3
      · simp only [routesFinalFlush]
        rw [if_neg hz]
        constructor
        · intro t ht
          rcases List.mem_append.mp ht with h | h
          · exact g1 t h
          · simp only [List.mem_singleton] at h
            subst h
            omega
        · rw [concatAll_append]
          simp only [concatAll, List.append_nil]
          exact g3

theorem batch_budget_amended_witness :
    (∀ t ∈ routesTransmissions [List.replicate 100 (0 : Nat)],
      t.length < PACKET_CONCAT_SIZE + 100) ∧
    concatAll (routesTransmissions [List.replicate 100 (0 : Nat)]) =
      concatAll [List.replicate 100 (0 : Nat)] :=
  batch_budget_amended.2 100 [List.replicate 100 0]
    (by intro m hm; simp only [List.mem_singleton] at hm; subst hm;
        rw [List.length_replicate])

/-- Claim C7: Sequence.next returns a strictly increasing positive integer
starting at 1 on the first call; the sequences stamped into the requests
built in a session are exactly the successive allocator values at build
time (s.nxt + 1, s.nxt + 2, ...), hence pairwise strictly increasing; and
request_dump stamps the value the allocator returns at build time together
with the session pid. -/
theorem sequence_strictly_increasing :
    (Sequence.init.next.1 = 1) ∧
    (∀ s : Sequence, 0 < s.next.1 ∧ s.next.1 < s.next.2.next.1) ∧
    (∀ (pid : Nat) (types : List (Nat × Nat)) (s : Sequence),
      (buildSession pid types s).1.map BuiltRequest.seq =
        List.range' (s.nxt + 1) types.length ∧
      List.Pairwise (· < ·) ((buildSession pid types s).1.map BuiltRequest.seq)) ∧
    (∀ (s : Sequence) (pid : Nat),
      (request_dump s pid RTM_GETLINK).1 =
        some ⟨s.next.1, pid, RTM_GETLINK, NLM_F_REQUEST ||| NLM_F_DUMP⟩ ∧
      (request_dump s pid RTM_GETROUTE).1 =
        some ⟨s.next.1, pid, RTM_GETROUTE, NLM_F_REQUEST ||| NLM_F_DUMP⟩) := by
  refine ⟨rfl, ?_, ?_, ?_⟩
  · intro s
    simp [Sequence.next]
  · intro pid types s
    obtain ⟨g1, _, _⟩ := buildSession_props pid types s
    refine ⟨g1, ?_⟩
    rw [g1]
    exact List.pairwise_lt_range' _ _
  · intro s pid
    constructor <;>
      simp [request_dump, RTM_GETLINK, RTM_GETROUTE, RTM_GETADDR, RTM_GETNEIGH,
        Sequence.next]

/-- Claim C8: when the interface name contains a dot and the integer value
of the text after the last dot differs from the requested vlanid,
link_add_vlan raises the dedicated validation error before any packet is
built or sent; when the suffix value equals the requested vlanid, or the
name has no dot, the operation proceeds to build and send the request. -/
theorem vlan_name_validation :
    (∀ (ifindex : Nat) (ifname : String) (vlanid n : Int),
      '.' ∈ ifname.data →
      pyInt (lastDotComponent ifname) = some n → n ≠ vlanid →
      link_add_vlan ifindex ifname vlanid = .invalidCombo) ∧
    (∀ (ifindex : Nat) (ifname : String) (vlanid : Int),
      '.' ∈ ifname.data →
      pyInt (lastDotComponent ifname) = some vlanid →
      link_add_vlan ifindex ifname vlanid = .sent ifindex ifname vlanid) ∧
    (∀ (ifindex : Nat) (ifname : String) (vlanid : Int),
      '.' ∉ ifname.data →
      link_add_vlan ifindex ifname vlanid = .sent ifindex ifname vlanid) := by
  refine ⟨?_, ?_, ?_⟩
  · intro ifindex ifname vlanid n hdot hparse hne
    simp [link_add_vlan, hdot, hparse, hne]
  · intro ifindex ifname vlanid hdot hparse
    simp [link_add_vlan, hdot, hparse]
  · intro ifindex ifname vlanid hdot
    simp [link_add_vlan, hdot]

theorem vlan_name_validation_witness :
    link_add_vlan 5 "swp2.17" 12 = .invalidCombo ∧
    link_add_vlan 7 "swp2.12" 12 = .sent 7 "swp2.12" 12 ∧
    link_add_vlan 9 "swp2" 12 = .sent 9 "swp2" 12 :=
  ⟨vlan_name_validation.1 5 "swp2.17" 12 17 (by decide) (by decide) (by decide),
   vlan_name_validation.2.1 7 "swp2.12" 12 (by decide) (by decide),
   vlan_name_validation.2.2 9 "swp2" 12 (by decide)⟩

/-- Claim C10: a dotted interface name whose final component does not
parse as a decimal integer makes link_add_vlan fail with the int()
conversion error — not with the dedicated validation error — before any
packet is built or sent; the dedicated validation error is reachable only
when the suffix parses as an integer. -/
theorem vlan_suffix_conversion_error (ifindex : Nat) (ifname : String)
    (vlanid : Int) (hdot : '.' ∈ ifname.data)
    (hparse : pyInt (lastDotComponent ifname) = none) :
    link_add_vlan ifindex ifname vlanid = .valueError ∧
    link_add_vlan ifindex ifname vlanid ≠ .invalidCombo := by
  have h : link_add_vlan ifindex ifname vlanid = .valueError := by
    simp [link_add_vlan, hdot, hparse]
  refine ⟨h, ?_⟩
  rw [h]
  simp

theorem vlan_suffix_conversion_error_witness :
    link_add_vlan 5 "eth0.abc" 12 = .valueError ∧
    link_add_vlan 5 "eth0.abc" 12 ≠ .invalidCombo :=
  vlan_suffix_conversion_error 5 "eth0.abc" 12 (by decide) (by decide)

end Nlmanager
